import Mathlib

/-!
Shallow embedding of the Libra full-node JSON-RPC method handlers
(`json-rpc/src/methods.rs`) and proofs of the specified properties.

External collaborators (the `DbReader` storage interface, the mempool
channel, and the `libra-types` parsers) are modelled as structure fields
or small executable functions; the handler bodies themselves are
translated statement-by-statement from the Rust source.
-/

namespace LibraJsonRpc

/-- Errors a handler may surface.  The Rust code uses `anyhow::Error`
wrapping either `JsonRpcError` values or ad-hoc `ensure!`/`format_err!`
messages; the spec taxonomy (§7) names the classes modelled here. -/
inductive Err where
  /-- arity or value-range violation (`ensure!` on `limit`, spec §7a) -/
  | invalidArguments (msg : String)
  /-- malformed hex / binary / JSON payload (serde and decode failures, spec §7b) -/
  | decodeError
  /-- storage returned a shape inconsistent with the request (spec §7c) -/
  | storageInvariant (msg : String)
  /-- transaction evaluated and rejected at execution time (`JsonRpcError::vm_status`) -/
  | vmStatus (status : Nat)
  /-- admission rejected, carrying the mempool status code and message
      (`JsonRpcError::mempool_error`) -/
  | mempoolError (code : Nat) (msg : String)
  /-- failure inside a storage-collaborator call, propagated by `?` -/
  | storage (msg : String)
deriving DecidableEq, Repr

/-- Untyped JSON parameter value (`serde_json::Value`), restricted to the
shapes the handlers inspect. Numbers are modelled as integers: the
handlers only ever deserialize integral types from them. -/
inductive Value where
  | null
  | bool (b : Bool)
  | num (n : Int)
  | str (s : String)
deriving DecidableEq, Repr

/-- `serde_json::from_value::<u64>`: succeeds exactly on an integral
number in `[0, 2^64)`. -/
def from_value_u64 : Value → Except Err Nat
  | .num n => if 0 ≤ n ∧ n < 18446744073709551616 then .ok n.toNat else .error .decodeError
  | _ => .error .decodeError

/-- `serde_json::from_value::<String>` -/
def from_value_string : Value → Except Err String
  | .str s => .ok s
  | _ => .error .decodeError

/-- `serde_json::from_value::<bool>` -/
def from_value_bool : Value → Except Err Bool
  | .bool b => .ok b
  | _ => .error .decodeError

/-- Value of a single hex digit (`hex` crate). -/
def hexVal (c : Char) : Option Nat :=
  if c.isDigit then some (c.toNat - 48)
  else if 'a' ≤ c ∧ c ≤ 'f' then some (c.toNat - 87)
  else if 'A' ≤ c ∧ c ≤ 'F' then some (c.toNat - 55)
  else none

/-- Decode a list of hex characters two at a time into bytes. -/
def hexPairs : List Char → Option (List Nat)
  | [] => some []
  | [_] => none
  | c1 :: c2 :: rest => do
      let hi ← hexVal c1
      let lo ← hexVal c2
      let t ← hexPairs rest
      some ((16 * hi + lo) :: t)

/-- `hex::decode`: an even-length string of hex digits decodes to bytes,
anything else is a decode error. -/
def hex_decode (s : String) : Except Err (List Nat) :=
  match hexPairs s.data with
  | some bytes => .ok bytes
  | none => .error .decodeError

/-- Account addresses are 16 bytes. -/
abbrev AccountAddress := List Nat

/-- `AccountAddress::from_str`: hex-decode and require exactly 16 bytes
(32 hex characters). Modelled from `libra-types` (not under `src/`). -/
def AccountAddress.from_str (s : String) : Except Err AccountAddress :=
  match hex_decode s with
  | .ok bytes => if bytes.length = 16 then .ok bytes else .error .decodeError
  | .error e => .error e

/-- `AccountAddress::try_from::<String>` behaves like `from_str`. -/
def AccountAddress.try_from (s : String) : Except Err AccountAddress :=
  AccountAddress.from_str s

/-- Currency identifier (`Identifier` from `move-core-types`). -/
abbrev Identifier := String

/-- `from_currency_code_string`: valid on non-empty identifier strings.
Modelled from `libra-types` (not under `src/`). -/
def from_currency_code_string (s : String) : Except Err Identifier :=
  if s.isEmpty then .error .decodeError else .ok s

/-- Account resource: the fields `AccountView::new` reads from it. -/
structure AccountResource where
  sequence_number : Nat
  authentication_key : List Nat
  delegated_key_rotation_capability : Bool
  delegated_withdrawal_capability : Bool
deriving DecidableEq, Repr

/-- Role descriptor attached to an account. -/
abbrev AccountRole := String

/-- Freezing-bit resource payload. -/
abbrev FreezingBit := Bool

/-- Parsed account state. The four extraction methods called by
`get_account` live in `libra-types` (not under `src/`); each is modelled
as a field returning exactly what the method returns there: the account
resource, role and freezing bit are optional (`Result<Option<_>>`), the
balance resources are the set of balance entries found for the requested
currencies (`Result<Vec<_>>` — absence of a balance is not a distinct
signal, the entry is simply missing from the result). -/
structure AccountState where
  get_account_resource : Except Err (Option AccountResource)
  get_balance_resources : List Identifier → Except Err (List (Identifier × Nat))
  get_account_role : List Identifier → Except Err (Option AccountRole)
  get_freezing_bit : Except Err (Option FreezingBit)

/-- Currency-info resource as stored on chain. -/
structure CurrencyInfoResource where
  code : String
  scaling_factor : Nat
  fractional_digits : Nat
deriving DecidableEq, Repr

/-- A raw resource blob as returned by storage.  Parsing a blob is done
by external `libra-types` code; the model records which well-formed
payload (if any) a blob parses to. -/
inductive Blob where
  | account (st : AccountState)
  | currencies (codes : List Identifier)
  | currencyInfo (info : CurrencyInfoResource)
  | malformed

/-- `AccountState::try_from(&blob)` -/
def AccountState.try_from : Blob → Except Err AccountState
  | .account st => .ok st
  | _ => .error .decodeError

/-- `RegisteredCurrencies::from_bytes` -/
def RegisteredCurrencies.from_bytes : Blob → Except Err (List Identifier)
  | .currencies codes => .ok codes
  | _ => .error .decodeError

/-- `CurrencyInfoResource::try_from_bytes` -/
def CurrencyInfoResource.try_from_bytes : Blob → Except Err CurrencyInfoResource
  | .currencyInfo info => .ok info
  | _ => .error .decodeError

/-- Resource access path, opaque beyond equality. -/
abbrev AccessPath := String

/-- `RegisteredCurrencies::CONFIG_ID.access_path()` -/
def registered_currencies_path : AccessPath := "RegisteredCurrencies"

/-- `CurrencyInfoResource::resource_path_for(code)` -/
def CurrencyInfoResource.resource_path_for (code : Identifier) : AccessPath :=
  String.append "CurrencyInfo/" code

/-- Event stream key (`EventKey`), 24 bytes. -/
abbrev EventKey := List Nat

/-- `EventKey::try_from(&bytes[..])`: requires exactly 24 bytes.
Modelled from `libra-types` (not under `src/`). -/
def EventKey.try_from (bytes : List Nat) : Except Err EventKey :=
  if bytes.length = 24 then .ok bytes else .error .decodeError

/-- A contract event as stored in the ledger. -/
structure ContractEvent where
  key : EventKey
  sequence_number : Nat
  event_data : List Nat
deriving DecidableEq, Repr

/-- A committed transaction, opaque to this layer beyond its hash. The
`hash` field models `tx.hash().to_hex()` (external `CryptoHash`). -/
structure Transaction where
  hash : String
  payload : List Nat
deriving DecidableEq, Repr

/-- Per-transaction execution record from the proof. -/
structure TransactionInfo where
  status : Nat
  gas_used : Nat
deriving DecidableEq, Repr

/-- The proof accompanying a transaction range; this layer only reads
its `transaction_infos`. -/
structure TransactionListProof where
  transaction_infos : List TransactionInfo
deriving DecidableEq, Repr

/-- `TransactionListWithProof` as returned by
`DbReader::get_transactions`. -/
structure TransactionListWithProof where
  transactions : List Transaction
  events : Option (List (List ContractEvent))
  proof : TransactionListProof
deriving DecidableEq, Repr

/-- Proof for a single transaction; this layer reads its
`transaction_info`. -/
structure TransactionInfoWithProof where
  transaction_info : TransactionInfo
deriving DecidableEq, Repr

/-- `TransactionWithProof` as returned by `DbReader::get_txn_by_account`. -/
structure TransactionWithProof where
  version : Nat
  transaction : Transaction
  events : Option (List ContractEvent)
  proof : TransactionInfoWithProof
deriving DecidableEq, Repr

/-- Account blob plus inclusion proof at a `(version, ledger_version)`
pair, opaque to this layer. -/
structure AccountStateWithProof where
  blob_present : Bool
  proof_data : List Nat
deriving DecidableEq, Repr

/-- View of an account blob plus proof; `TryFrom` lives in `views.rs`
(not under `src/`). Modelled from the spec: the handler "fetches the
account blob and inclusion proof ... and packages them". -/
structure AccountStateWithProofView where
  inner : AccountStateWithProof
deriving DecidableEq, Repr

/-- `AccountStateWithProofView::try_from` -/
def AccountStateWithProofView.try_from (x : AccountStateWithProof) :
    Except Err AccountStateWithProofView :=
  .ok ⟨x⟩

/-- The ledger snapshot bound to a request
(`LedgerInfoWithSignatures`); the handlers read its version and
timestamp. -/
structure LedgerInfoWithSignatures where
  version : Nat
  timestamp_usecs : Nat
deriving DecidableEq, Repr

/-- Mempool admission status codes (`MempoolStatusCode`). -/
inductive MempoolStatusCode where
  | accepted
  | invalidSeqNumber
  | mempoolIsFull
  | tooManyTransactions
  | invalidUpdate
  | vmError
  | unknownStatus
deriving DecidableEq, Repr

/-- Numeric encoding of a mempool status code. -/
def MempoolStatusCode.toNat : MempoolStatusCode → Nat
  | .accepted => 0
  | .invalidSeqNumber => 1
  | .mempoolIsFull => 2
  | .tooManyTransactions => 3
  | .invalidUpdate => 4
  | .vmError => 5
  | .unknownStatus => 6

/-- Admission status returned by the mempool. -/
structure MempoolStatus where
  code : MempoolStatusCode
  message : String
deriving DecidableEq, Repr

/-- Execution (VM) status optionally attached to the mempool response. -/
abbrev VmStatus := Nat

/-- A signed transaction; `lcs::from_bytes` deserialization is external,
so the model keeps the raw bytes. -/
structure SignedTransaction where
  bytes : List Nat
deriving DecidableEq, Repr

/-- `lcs::from_bytes::<SignedTransaction>`: modelled from the spec
("decodes and deserializes it; failure yields a deserialization
error") — an LCS encoding of a signed transaction is never empty. -/
def lcs_from_bytes (bytes : List Nat) : Except Err SignedTransaction :=
  if bytes.isEmpty then .error .decodeError else .ok ⟨bytes⟩

/-- `JsonRpcError::vm_status` wrapped in `Error::new`. -/
def JsonRpcError.vm_status (status : VmStatus) : Err :=
  Err.vmStatus status

/-- `JsonRpcError::mempool_error` (in `errors.rs`, not under `src/`).
Modelled from the spec: "fail with an admission-status error carrying
the code and message"; the function itself is fallible in the source
(`?`), hence the `Except`. -/
def JsonRpcError.mempool_error (status : MempoolStatus) : Except Err Err :=
  .ok (Err.mempoolError status.code.toNat status.message)

/-- The storage collaborator (`DbReader`), modelled as the tuple of the
query functions the handlers call.  Each is an arbitrary function: the
theorems quantify over collaborator behaviour. -/
structure DbReader where
  get_account_state_with_proof_by_version :
    AccountAddress → Nat → Except Err (Option Blob)
  get_block_timestamp : Nat → Except Err Nat
  get_transactions_db : Nat → Nat → Nat → Bool → Except Err TransactionListWithProof
  get_txn_by_account : AccountAddress → Nat → Nat → Bool → Except Err (Option TransactionWithProof)
  get_events_db : EventKey → Nat → Bool → Nat → Except Err (List (Nat × ContractEvent))
  batch_fetch_resources_by_version : List AccessPath → Nat → Except Err (List Blob)
  get_account_state_with_proof : AccountAddress → Nat → Nat → Except Err AccountStateWithProof

/-- `JsonRpcService`: the service handle.  `mempool_sender` models the
full `send (transaction, req_sender); callback.await??` handshake of
`submit`: any channel or admission failure is an `Err`, success carries
`(mempool_status, vm_status_opt)`. -/
structure JsonRpcService where
  db : DbReader
  mempool_sender : SignedTransaction → Except Err (MempoolStatus × Option VmStatus)
  role : String
  chain_id : Nat

/-- `JsonRpcRequest` -/
structure JsonRpcRequest where
  params : List Value
  ledger_info : LedgerInfoWithSignatures

/-- Returns the request parameter at the given index; default `Value` if
the index is out of bounds. -/
def JsonRpcRequest.get_param_with_default
    (r : JsonRpcRequest) (index : Nat) (default : Value) : Value :=
  if h : r.params.length > index then r.params.get ⟨index, h⟩ else default

/-- Returns the request parameter at the given index; `Null` if the
index is out of bounds. -/
def JsonRpcRequest.get_param (r : JsonRpcRequest) (index : Nat) : Value :=
  r.get_param_with_default index Value.null

/-- The request's effective version: the bound snapshot's version. -/
def JsonRpcRequest.version (r : JsonRpcRequest) : Nat :=
  r.ledger_info.version

/-- View of one event (`EventView::from((u64, ContractEvent))`): always
attributed to the transaction version that emitted it. -/
structure EventView where
  key : EventKey
  sequence_number : Nat
  transaction_version : Nat
  event_data : List Nat
deriving DecidableEq, Repr

/-- `(version, event).into()` -/
def EventView.from_tuple (ve : Nat × ContractEvent) : EventView :=
  { key := ve.2.key
    sequence_number := ve.2.sequence_number
    transaction_version := ve.1
    event_data := ve.2.event_data }

/-- View of one transaction. -/
structure TransactionView where
  version : Nat
  hash : String
  transaction : Transaction
  events : List EventView
  vm_status : Nat
  gas_used : Nat
deriving DecidableEq, Repr

/-- View of one account, assembled by `AccountView::new` from the four
fetched resources. -/
structure AccountView where
  account : AccountResource
  balances : List (Identifier × Nat)
  role : AccountRole
  is_frozen : FreezingBit
deriving DecidableEq, Repr

/-- `AccountView::new` -/
def AccountView.new (account : AccountResource) (balances : List (Identifier × Nat))
    (role : AccountRole) (freezing_bit : FreezingBit) : AccountView :=
  { account := account, balances := balances, role := role, is_frozen := freezing_bit }

/-- View of one currency descriptor. -/
structure CurrencyInfoView where
  code : String
  scaling_factor : Nat
  fractional_digits : Nat
deriving DecidableEq, Repr

/-- `CurrencyInfoView::from` -/
def CurrencyInfoView.from_resource (info : CurrencyInfoResource) : CurrencyInfoView :=
  { code := info.code
    scaling_factor := info.scaling_factor
    fractional_digits := info.fractional_digits }

/-- `BlockMetadata` -/
structure BlockMetadata where
  version : Nat
  timestamp : Nat
deriving DecidableEq, Repr

/-- `StateProofView::try_from((ledger_info, proofs.0, proofs.1))` is
external (`views.rs`); the state-proof handler is not under test here. -/
structure StateProofView where
  ledger_info : LedgerInfoWithSignatures
deriving DecidableEq, Repr

/-! ## Handlers, translated from `json-rpc/src/methods.rs` -/

/-- `submit`: decode and deserialize parameter 0, hand the transaction
to the mempool, and map `(mempool_status, vm_status_opt)` to a result. -/
def submit (service : JsonRpcService) (request : JsonRpcRequest) : Except Err Unit := do
  let txn_payload ← from_value_string (request.get_param 0)
  let bytes ← hex_decode txn_payload
  let transaction ← lcs_from_bytes bytes
  let (mempool_status, vm_status_opt) ← service.mempool_sender transaction
  match vm_status_opt with
  | some vm_status => .error (JsonRpcError.vm_status vm_status)
  | none =>
    if mempool_status.code = MempoolStatusCode.accepted then
      .ok ()
    else
      .error (← JsonRpcError.mempool_error mempool_status)

/-- `currencies_info`: fetch the registered-currencies directory
(exactly one blob required), then batch-fetch one resource per code. -/
def currencies_info (service : JsonRpcService) (request : JsonRpcRequest) :
    Except Err (List CurrencyInfoView) := do
  let raw_data ← service.db.batch_fetch_resources_by_version
    [registered_currencies_path] request.version
  match raw_data with
  | [one] =>
    let currencies ← RegisteredCurrencies.from_bytes one
    let access_paths := currencies.map
      (fun code => CurrencyInfoResource.resource_path_for code)
    let raw_infos ← service.db.batch_fetch_resources_by_version
      access_paths request.version
    let infos ← raw_infos.mapM (fun raw => CurrencyInfoResource.try_from_bytes raw)
    .ok (infos.map (fun info => CurrencyInfoView.from_resource info))
  | _ => .error (.storageInvariant "invalid storage result")

/-- `get_account`: fetch the blob at the effective version, the currency
directory, then extract account resource, balances, role and freezing
bit; the view is produced inside the nested presence checks, every
fall-through returns `Ok(None)`. -/
def get_account (service : JsonRpcService) (request : JsonRpcRequest) :
    Except Err (Option AccountView) := do
  let address ← from_value_string (request.get_param 0)
  let account_address ← AccountAddress.from_str address
  let response ← service.db.get_account_state_with_proof_by_version
    account_address request.version
  let currency_info ← currencies_info service request
  let currencies ← currency_info.mapM
    (fun info => from_currency_code_string info.code)
  match response with
  | some blob =>
    let account_state ← AccountState.try_from blob
    match ← account_state.get_account_resource with
    | some account =>
      let balances ← account_state.get_balance_resources currencies
      match ← account_state.get_account_role currencies with
      | some account_role =>
        match ← account_state.get_freezing_bit with
        | some freezing_bit =>
          .ok (some (AccountView.new account balances account_role freezing_bit))
        | none => .ok none
      | none => .ok none
    | none => .ok none
  | none => .ok none

/-- `get_metadata`: if parameter 0 parses as a `u64` version, pair it
with the storage timestamp lookup; otherwise fall back to the bound
snapshot's version and timestamp. -/
def get_metadata (service : JsonRpcService) (request : JsonRpcRequest) :
    Except Err BlockMetadata :=
  match from_value_u64 (request.get_param 0) with
  | .ok version => do
    let timestamp ← service.db.get_block_timestamp version
    .ok { version := version, timestamp := timestamp }
  | .error _ =>
    .ok { version := request.version
          timestamp := request.ledger_info.timestamp_usecs }

/-- The per-iteration `events` expression of the `get_transactions`
loop: `all_events.get(v).ok_or_else(...)` mapped into views when events
were requested, empty otherwise. -/
def transaction_events (start_version : Nat) (include_events : Bool)
    (all_events : List (List ContractEvent)) (v : Nat) : Except Err (List EventView) :=
  if include_events then
    match all_events.get? v with
    | some evs =>
      .ok (evs.map (fun x => EventView.from_tuple (start_version + v, x)))
    | none => .error (.storageInvariant "Missing events for version")
  else .ok []

/-- The `for (v, (tx, info)) in txs_with_info.enumerate()` loop of
`get_transactions`: `v` is the running index. -/
def build_transaction_views (start_version : Nat) (include_events : Bool)
    (all_events : List (List ContractEvent)) :
    List (Transaction × TransactionInfo) → Nat → Except Err (List TransactionView)
  | [], _ => .ok []
  | (tx, info) :: rest, v => do
    let events ← transaction_events start_version include_events all_events v
    let tail ← build_transaction_views start_version include_events all_events rest (v + 1)
    .ok ({ version := start_version + v
           hash := tx.hash
           transaction := tx
           events := events
           vm_status := info.status
           gas_used := info.gas_used } :: tail)

/-- The `let all_events = if include_events { txs.events.ok_or_else(...)? }
else { vec![] }` step of `get_transactions`. -/
def extract_all_events (include_events : Bool)
    (events : Option (List (List ContractEvent))) :
    Except Err (List (List ContractEvent)) :=
  if include_events then
    match events with
    | some evs => .ok evs
    | none =>
      .error (.storageInvariant "Storage layer did not return events when requested")
  else .ok []

/-- `get_transactions`: parse `(start_version, limit, include_events)`,
enforce `0 < limit <= 1000`, fetch the range, and build one view per
`(transaction, info)` pair with version `start_version + index`. -/
def get_transactions (service : JsonRpcService) (request : JsonRpcRequest) :
    Except Err (List TransactionView) := do
  let start_version ← from_value_u64 (request.get_param 0)
  let limit ← from_value_u64 (request.get_param 1)
  let include_events ← from_value_bool (request.get_param 2)
  if limit > 0 ∧ limit ≤ 1000 then
    let txs ← service.db.get_transactions_db
      start_version limit request.version include_events
    let all_events ← extract_all_events include_events txs.events
    let txs_with_info := txs.transactions.zip txs.proof.transaction_infos
    build_transaction_views start_version include_events all_events txs_with_info 0
  else
    .error (.invalidArguments "limit must be smaller than 1000")

/-- `get_account_transaction`: look up the single transaction for
`(account, sequence)`; if events were requested the record must carry
them, otherwise they default to empty. -/
def get_account_transaction (service : JsonRpcService) (request : JsonRpcRequest) :
    Except Err (Option TransactionView) := do
  let p_account ← from_value_string (request.get_param 0)
  let sequence ← from_value_u64 (request.get_param 1)
  let include_events ← from_value_bool (request.get_param 2)
  let account ← AccountAddress.try_from p_account
  let tx ← service.db.get_txn_by_account account sequence request.version include_events
  match tx with
  | some tx =>
    if include_events ∧ tx.events = none then
      .error (.storageInvariant "Storage layer did not return events when requested")
    else
      let tx_version := tx.version
      let events := (tx.events.getD []).map (fun x => EventView.from_tuple (tx_version, x))
      .ok (some { version := tx_version
                  hash := tx.transaction.hash
                  transaction := tx.transaction
                  events := events
                  vm_status := tx.proof.transaction_info.status
                  gas_used := tx.proof.transaction_info.gas_used })
  | none => .ok none

/-- `get_events`: fetch up to `limit` events forward from `start`, then
keep only those whose version does not exceed the effective version. -/
def get_events (service : JsonRpcService) (request : JsonRpcRequest) :
    Except Err (List EventView) := do
  let raw_event_key ← from_value_string (request.get_param 0)
  let start ← from_value_u64 (request.get_param 1)
  let limit ← from_value_u64 (request.get_param 2)
  let bytes ← hex_decode raw_event_key
  let event_key ← EventKey.try_from bytes
  let events_with_proof ← service.db.get_events_db event_key start true limit
  let req_version := request.version
  let events := (events_with_proof.filter (fun ve => ve.1 ≤ req_version)).map
    (fun event => EventView.from_tuple event)
  .ok events

/-- `get_account_state_with_proof`: parameters 1 and 2 each resolve to
the parsed `u64` when parsing succeeds and to the effective version
otherwise (`unwrap_or_else`). -/
def get_account_state_with_proof (service : JsonRpcService) (request : JsonRpcRequest) :
    Except Err AccountStateWithProofView := do
  let address ← from_value_string (request.get_param 0)
  let account_address ← AccountAddress.from_str address
  let version :=
    match from_value_u64 (request.get_param 1) with
    | .ok v => v
    | .error _ => request.version
  let ledger_version :=
    match from_value_u64 (request.get_param 2) with
    | .ok v => v
    | .error _ => request.version
  let account_state_with_proof ← service.db.get_account_state_with_proof
    account_address version ledger_version
  AccountStateWithProofView.try_from account_state_with_proof

/-- The parse-or-default resolution used for the optional version
parameters of `get_account_state_with_proof` (spec §4.2). -/
def resolve_version (p : Value) (default : Nat) : Nat :=
  match from_value_u64 p with
  | .ok v => v
  | .error _ => default

/-! ## Helper lemmas on `Except` -/

theorem bind_ok {α β : Type} (a : α) (f : α → Except Err β) :
    (Except.ok a >>= f) = f a := rfl

theorem bind_error {α β : Type} (e : Err) (f : α → Except Err β) :
    ((Except.error e : Except Err α) >>= f) = Except.error e := rfl

theorem bind_eq_ok {α β : Type} {e : Except Err α} {f : α → Except Err β} {b : β}
    (h : e >>= f = .ok b) : ∃ a, e = .ok a ∧ f a = .ok b := by
  cases e with
  | ok a => exact ⟨a, rfl, h⟩
  | error err => simp [bind_error] at h

/-! ## Concrete fixtures used by the witnesses -/

/-- A snapshot at version 10. -/
def exLedgerInfo : LedgerInfoWithSignatures := { version := 10, timestamp_usecs := 1000 }

/-- 32 hex characters: a well-formed 16-byte address. -/
def exAddressStr : String := "00000000000000000000000000000000"

/-- The decoded example address. -/
def exAddress : AccountAddress := List.replicate 16 0

/-- Account state whose account resource, role and freezing bit are all
present but which holds no balance resource for any currency. -/
def exAccountState : AccountState :=
  { get_account_resource := .ok (some
      { sequence_number := 7
        authentication_key := [1, 2]
        delegated_key_rotation_capability := false
        delegated_withdrawal_capability := false })
    get_balance_resources := fun _ => .ok []
    get_account_role := fun _ => .ok (some "parent_vasp")
    get_freezing_bit := .ok (some false) }

/-- Storage collaborator used by the witnesses: the example account blob
exists, the currency directory is empty, timestamps are `11 * version`,
events live at versions 5 and 11, and three transactions are available
from version 3. -/
def exDb : DbReader :=
  { get_account_state_with_proof_by_version := fun _ _ =>
      .ok (some (.account exAccountState))
    get_block_timestamp := fun v => .ok (11 * v)
    get_transactions_db := fun start limit _ _ =>
      .ok { transactions :=
              (List.range (min limit 3)).map (fun i => ⟨"h", [start + i]⟩)
            events := some ((List.range (min limit 3)).map (fun _ => []))
            proof := ⟨(List.range (min limit 3)).map (fun _ => ⟨1, 0⟩)⟩ }
    get_txn_by_account := fun _ sequence _ _ =>
      .ok (some
        { version := 9
          transaction := { hash := "t", payload := [sequence] }
          events := none
          proof := { transaction_info := { status := 1, gas_used := 2 } } })
    get_events_db := fun key _ _ _ =>
      .ok [(5, { key := key, sequence_number := 0, event_data := [1] }),
           (11, { key := key, sequence_number := 1, event_data := [2] })]
    batch_fetch_resources_by_version := fun paths _ =>
      if paths = [registered_currencies_path] then .ok [.currencies []] else .ok []
    get_account_state_with_proof := fun _ v lv =>
      .ok { blob_present := true, proof_data := [v, lv] } }

/-- Service handle over `exDb`; the mempool accepts every transaction. -/
def exService : JsonRpcService :=
  { db := exDb
    mempool_sender := fun _ => .ok ({ code := .accepted, message := "" }, none)
    role := "full_node"
    chain_id := 4 }

/-- Service whose mempool rejects with `InvalidSeqNumber` and no
execution status. -/
def exRejectService : JsonRpcService :=
  { exService with
    mempool_sender := fun _ =>
      .ok ({ code := .invalidSeqNumber, message := "stale sequence number" }, none) }

/-- Service whose mempool attaches an execution status. -/
def exVmStatusService : JsonRpcService :=
  { exService with
    mempool_sender := fun _ => .ok ({ code := .accepted, message := "" }, some 4016) }

/-! ## Claim theorems -/

/-- C8: `get_metadata` with no parameter, or a parameter that fails to
parse as an unsigned version, returns the bound snapshot's version and
timestamp; with a parameter parsing as version `v` it returns `v`
paired with the storage collaborator's timestamp lookup for `v`
(errors of the lookup propagate), and the malformed-parameter path
cannot error. -/
theorem get_metadata_spec (service : JsonRpcService) (request : JsonRpcRequest) :
    (∀ e, from_value_u64 (request.get_param 0) = .error e →
      get_metadata service request =
        .ok { version := request.version
              timestamp := request.ledger_info.timestamp_usecs }) ∧
    (∀ v, from_value_u64 (request.get_param 0) = .ok v →
      get_metadata service request =
        (service.db.get_block_timestamp v).map
          (fun timestamp => { version := v, timestamp := timestamp })) := by
  constructor
  · intro e he
    simp [get_metadata, he]
  · intro v hv
    cases h : service.db.get_block_timestamp v <;>
      simp [get_metadata, hv, h, Except.map, bind, Except.bind]

/-- C8 witness: version parameter `3` yields the collaborator's
timestamp for version 3; no parameter yields the snapshot `(10, 1000)`. -/
theorem get_metadata_spec_witness :
    get_metadata exService { params := [.num 3], ledger_info := exLedgerInfo } =
        (exService.db.get_block_timestamp 3).map
          (fun timestamp => { version := 3, timestamp := timestamp }) ∧
    get_metadata exService { params := [], ledger_info := exLedgerInfo } =
        .ok { version := 10, timestamp := 1000 } :=
  ⟨(get_metadata_spec exService _).2 3 rfl,
   (get_metadata_spec exService _).1 .decodeError rfl⟩

/-- C9: in `get_account_state_with_proof`, parameters 1 and 2 are each
resolved by `resolve_version`, which passes a parsing parameter through
unchanged and defaults to the effective version exactly on parse
failure; the resolved pair is handed to the storage collaborator. -/
theorem get_account_state_with_proof_spec (service : JsonRpcService)
    (request : JsonRpcRequest) (address : String) (account_address : AccountAddress)
    (h0 : from_value_string (request.get_param 0) = .ok address)
    (h1 : AccountAddress.from_str address = .ok account_address) :
    get_account_state_with_proof service request =
      (service.db.get_account_state_with_proof account_address
          (resolve_version (request.get_param 1) request.version)
          (resolve_version (request.get_param 2) request.version)).bind
        AccountStateWithProofView.try_from ∧
    (∀ p v, from_value_u64 p = .ok v → resolve_version p request.version = v) ∧
    (∀ p e, from_value_u64 p = .error e →
      resolve_version p request.version = request.version) := by
  refine ⟨?_, ?_, ?_⟩
  · simp only [get_account_state_with_proof, h0, h1, bind_ok, resolve_version]
    rfl
  · intro p v hp
    simp [resolve_version, hp]
  · intro p e hp
    simp [resolve_version, hp]

/-- Request fixture for the C9 witness: parameter 1 parses as `5`,
parameter 2 (a boolean) fails to parse. -/
def c9Request : JsonRpcRequest :=
  { params := [.str exAddressStr, .num 5, .bool true], ledger_info := exLedgerInfo }

/-- C9 witness: version resolves to the parsed `5`, ledger version
defaults to the snapshot version `10`. -/
theorem get_account_state_with_proof_spec_witness :
    get_account_state_with_proof exService c9Request =
      (exService.db.get_account_state_with_proof exAddress
          (resolve_version (.num 5) 10) (resolve_version (.bool true) 10)).bind
        AccountStateWithProofView.try_from :=
  (get_account_state_with_proof_spec exService c9Request exAddressStr exAddress rfl rfl).1

/-- C4: no event returned by `get_events` has a version exceeding the
request's effective version, whatever the storage collaborator
returned. -/
theorem get_events_version_bound (service : JsonRpcService) (request : JsonRpcRequest)
    (events : List EventView) (h : get_events service request = .ok events) :
    ∀ ev ∈ events, ev.transaction_version ≤ request.version := by
  unfold get_events at h
  obtain ⟨raw, h0, h⟩ := bind_eq_ok h
  obtain ⟨start, h1, h⟩ := bind_eq_ok h
  obtain ⟨limit, h2, h⟩ := bind_eq_ok h
  obtain ⟨bytes, h3, h⟩ := bind_eq_ok h
  obtain ⟨key, h4, h⟩ := bind_eq_ok h
  obtain ⟨evs, h5, h⟩ := bind_eq_ok h
  simp only [Except.ok.injEq] at h
  subst h
  intro ev hev
  simp only [List.mem_map, List.mem_filter] at hev
  obtain ⟨ve, ⟨hmem, hle⟩, hv⟩ := hev
  subst hv
  simpa [EventView.from_tuple] using hle

/-- The events `exDb` yields at snapshot version 10: the version-11
event is filtered out, the version-5 event survives. -/
def c4Events : List EventView :=
  [{ key := List.replicate 24 0, sequence_number := 0, transaction_version := 5,
     event_data := [1] }]

/-- C4 witness: on `exDb` (which returns events at versions 5 and 11,
the latter filtered out), the one returned event's version is at most
the effective version 10. -/
theorem get_events_version_bound_witness :
    ({ key := List.replicate 24 0, sequence_number := 0, transaction_version := 5,
       event_data := [1] } : EventView).transaction_version ≤
      (JsonRpcRequest.mk
        [.str "000000000000000000000000000000000000000000000000", .num 0, .num 10]
        exLedgerInfo).version :=
  get_events_version_bound exService
    (JsonRpcRequest.mk
      [.str "000000000000000000000000000000000000000000000000", .num 0, .num 10]
      exLedgerInfo)
    c4Events rfl _ (by simp [c4Events])

/-- C3: given the admission pipeline's answer
`(status, vm_status_opt)`, `submit` succeeds iff no execution status is
attached and the admission code is `Accepted`; an attached execution
status yields the execution-status error, and a non-`Accepted` code
with no execution status yields the admission-status error carrying
that code and message. -/
theorem submit_spec (service : JsonRpcService) (request : JsonRpcRequest)
    (payload : String) (bytes : List Nat) (txn : SignedTransaction)
    (status : MempoolStatus) (vm_status_opt : Option VmStatus)
    (h0 : from_value_string (request.get_param 0) = .ok payload)
    (h1 : hex_decode payload = .ok bytes)
    (h2 : lcs_from_bytes bytes = .ok txn)
    (h3 : service.mempool_sender txn = .ok (status, vm_status_opt)) :
    (submit service request = .ok () ↔
      vm_status_opt = none ∧ status.code = .accepted) ∧
    (∀ vs, vm_status_opt = some vs →
      submit service request = .error (Err.vmStatus vs)) ∧
    (vm_status_opt = none → status.code ≠ .accepted →
      submit service request =
        .error (Err.mempoolError status.code.toNat status.message)) := by
  have hs : submit service request =
      match vm_status_opt with
      | some vm_status => .error (Err.vmStatus vm_status)
      | none =>
        if status.code = .accepted then .ok ()
        else .error (Err.mempoolError status.code.toNat status.message) := by
    simp only [submit, h0, h1, h2, h3, bind_ok]
    cases vm_status_opt with
    | some vs => rfl
    | none =>
      by_cases hc : status.code = .accepted <;>
        simp [hc, JsonRpcError.mempool_error, JsonRpcError.vm_status, bind_ok]
  refine ⟨?_, ?_, ?_⟩
  · rw [hs]
    cases vm_status_opt with
    | some vs => simp
    | none => by_cases hc : status.code = .accepted <;> simp [hc]
  · intro vs hvs
    subst hvs
    rw [hs]
  · intro hnone hc
    subst hnone
    rw [hs]
    simp [hc]

/-- Request fixture for the C3 witness: a one-byte payload `ff`. -/
def submitRequest : JsonRpcRequest := { params := [.str "ff"], ledger_info := exLedgerInfo }

/-- C3 witness: accepted with no execution status succeeds; rejection
code `InvalidSeqNumber` becomes the admission-status error; an attached
execution status becomes the execution-status error. -/
theorem submit_spec_witness :
    (submit exService submitRequest = .ok () ↔
      (none : Option VmStatus) = none ∧ MempoolStatusCode.accepted = .accepted) ∧
    submit exRejectService submitRequest = .error (Err.mempoolError 1 "stale sequence number") ∧
    submit exVmStatusService submitRequest = .error (Err.vmStatus 4016) :=
  ⟨(submit_spec exService submitRequest "ff" [255] ⟨[255]⟩ ⟨.accepted, ""⟩ none
      rfl rfl rfl rfl).1,
   (submit_spec exRejectService submitRequest "ff" [255] ⟨[255]⟩
      ⟨.invalidSeqNumber, "stale sequence number"⟩ none rfl rfl rfl rfl).2.2 rfl (by decide),
   (submit_spec exVmStatusService submitRequest "ff" [255] ⟨[255]⟩ ⟨.accepted, ""⟩ (some 4016)
      rfl rfl rfl rfl).2.1 4016 rfl⟩

/-- With events not requested the per-iteration events expression is
empty. -/
theorem transaction_events_false (start : Nat) (all_events : List (List ContractEvent))
    (v : Nat) : transaction_events start false all_events v = .ok [] := rfl

/-- With events requested and an events entry at index `v`, the
per-iteration events expression succeeds with that entry's views. -/
theorem transaction_events_true_of_lt (start : Nat)
    (all_events : List (List ContractEvent)) (v : Nat) (hlt : v < all_events.length) :
    transaction_events start true all_events v =
      .ok ((all_events.get ⟨v, hlt⟩).map
        (fun x => EventView.from_tuple (start + v, x))) := by
  simp [transaction_events, List.get?_eq_get, List.getElem?_eq_getElem hlt]

/-- The `get_transactions` loop succeeds when enough events entries are
available, produces one view per pair, and stamps version
`start + v + i` on the `i`-th view. -/
theorem build_transaction_views_ok (start : Nat) (include_events : Bool)
    (all_events : List (List ContractEvent))
    (pairs : List (Transaction × TransactionInfo)) (v : Nat)
    (hev : include_events = true → v + pairs.length ≤ all_events.length) :
    ∃ res, build_transaction_views start include_events all_events pairs v = .ok res ∧
      res.length = pairs.length ∧
      ∀ i (h : i < res.length), (res.get ⟨i, h⟩).version = start + v + i := by
  induction pairs generalizing v with
  | nil => exact ⟨[], rfl, rfl, fun i h => absurd h (by simp)⟩
  | cons p rest ih =>
    obtain ⟨tx, info⟩ := p
    obtain ⟨tail, htail, hlen, hver⟩ := ih (v + 1) (fun hinc => by
      have := hev hinc
      simp only [List.length_cons] at this
      omega)
    obtain ⟨events, hevents⟩ :
        ∃ events, transaction_events start include_events all_events v = .ok events := by
      cases hinc : include_events with
      | false => exact ⟨[], transaction_events_false start all_events v⟩
      | true =>
        have hlt : v < all_events.length := by
          have := hev hinc
          simp only [List.length_cons] at this
          omega
        exact ⟨_, transaction_events_true_of_lt start all_events v hlt⟩
    refine ⟨{ version := start + v, hash := tx.hash, transaction := tx, events := events,
              vm_status := info.status, gas_used := info.gas_used } :: tail, ?_, ?_, ?_⟩
    · simp only [build_transaction_views, hevents, bind_ok, htail]
    · simp [hlen]
    · intro i h
      cases i with
      | zero => simp
      | succ j =>
        simp only [List.length_cons] at h
        have hj : j < tail.length := by omega
        have := hver j hj
        simp only [List.get_cons_succ]
        rw [this]
        omega

/-- With events not requested, every view built by the
`get_transactions` loop carries an empty events list. -/
theorem build_transaction_views_no_events (start : Nat)
    (all_events : List (List ContractEvent)) :
    ∀ (pairs : List (Transaction × TransactionInfo)) (v : Nat) (res : List TransactionView),
    build_transaction_views start false all_events pairs v = .ok res →
    ∀ tv ∈ res, tv.events = [] := by
  intro pairs
  induction pairs with
  | nil =>
    intro v res h tv htv
    simp only [build_transaction_views, Except.ok.injEq] at h
    subst h
    simp at htv
  | cons p rest ih =>
    intro v res h tv htv
    obtain ⟨tx, info⟩ := p
    simp only [build_transaction_views, transaction_events_false, bind_ok] at h
    obtain ⟨tail, htail, h⟩ := bind_eq_ok h
    simp only [Except.ok.injEq] at h
    subst h
    rcases List.mem_cons.1 htv with htv | htv
    · simp [htv]
    · exact ih (v + 1) tail htail tv htv

/-- C2: with a parsed `limit` outside `(0, 1000]`, `get_transactions`
fails with the invalid-arguments error; inside the range, when the
storage collaborator returns `min limit available` transactions with
matching proof infos (and an adequate events batch if requested), the
result has length `min limit available` and the `i`-th entry's version
is `start + i`. -/
theorem get_transactions_spec (service : JsonRpcService) (request : JsonRpcRequest)
    (start limit : Nat) (include_events : Bool) (available : Nat)
    (txs : TransactionListWithProof)
    (h0 : from_value_u64 (request.get_param 0) = .ok start)
    (h1 : from_value_u64 (request.get_param 1) = .ok limit)
    (h2 : from_value_bool (request.get_param 2) = .ok include_events) :
    (¬(limit > 0 ∧ limit ≤ 1000) →
      get_transactions service request =
        .error (.invalidArguments "limit must be smaller than 1000")) ∧
    (limit > 0 → limit ≤ 1000 →
      service.db.get_transactions_db start limit request.version include_events = .ok txs →
      txs.transactions.length = min limit available →
      txs.proof.transaction_infos.length = txs.transactions.length →
      (include_events = true →
        ∃ evs, txs.events = some evs ∧ txs.transactions.length ≤ evs.length) →
      ∃ result, get_transactions service request = .ok result ∧
        result.length = min limit available ∧
        ∀ i (h : i < result.length), (result.get ⟨i, h⟩).version = start + i) := by
  constructor
  · intro hlim
    simp only [get_transactions, h0, h1, h2, bind_ok]
    rw [if_neg hlim]
  · intro hl0 hl1000 hdb hlen hproof hevs
    have hpairs : (txs.transactions.zip txs.proof.transaction_infos).length =
        txs.transactions.length := by
      rw [List.length_zip, hproof, Nat.min_self]
    obtain ⟨all_events, hae, haelen⟩ :
        ∃ all_events, extract_all_events include_events txs.events = .ok all_events ∧
          (include_events = true → txs.transactions.length ≤ all_events.length) := by
      cases hinc : include_events with
      | false => exact ⟨[], by simp [extract_all_events], by simp⟩
      | true =>
        obtain ⟨evs, hsome, hle⟩ := hevs hinc
        exact ⟨evs, by simp [extract_all_events, hsome], fun _ => hle⟩
    obtain ⟨res, hbuild, hreslen, hver⟩ :=
      build_transaction_views_ok start include_events all_events
        (txs.transactions.zip txs.proof.transaction_infos) 0
        (fun hinc => by rw [Nat.zero_add, hpairs]; exact haelen hinc)
    refine ⟨res, ?_, ?_, ?_⟩
    · simp only [get_transactions, h0, h1, h2, bind_ok]
      rw [if_pos ⟨hl0, hl1000⟩]
      rw [hdb]
      simp only [bind_ok]
      rw [hae]
      simp only [bind_ok]
      exact hbuild
    · rw [hreslen, hpairs, hlen]
    · intro i h
      have := hver i h
      omega

/-- Request fixture asking for two transactions from version 3, events
not included. -/
def c2Request : JsonRpcRequest :=
  { params := [.num 3, .num 2, .bool false], ledger_info := exLedgerInfo }

/-- What `exDb` returns for `get_transactions_db 3 2 10 false`. -/
def c2Txs : TransactionListWithProof :=
  { transactions := [⟨"h", [3]⟩, ⟨"h", [4]⟩]
    events := some [[], []]
    proof := ⟨[⟨1, 0⟩, ⟨1, 0⟩]⟩ }

/-- C2 witness: limit 2 with 3 available yields 2 views at versions
3 and 4. -/
theorem get_transactions_spec_witness :
    ∃ result, get_transactions exService c2Request = .ok result ∧
      result.length = min 2 3 ∧
      ∀ i (h : i < result.length), (result.get ⟨i, h⟩).version = 3 + i :=
  (get_transactions_spec exService c2Request 3 2 false 3 c2Txs rfl rfl rfl).2
    (by decide) (by decide) rfl rfl rfl (by intro h; cases h)

/-- C10: when the parsed `include_events` flag is `false`, every view
returned by `get_transactions` has an empty events list, whatever event
data the storage collaborator returned. -/
theorem get_transactions_no_events_spec (service : JsonRpcService) (request : JsonRpcRequest)
    (result : List TransactionView)
    (hb : from_value_bool (request.get_param 2) = .ok false)
    (h : get_transactions service request = .ok result) :
    ∀ tv ∈ result, tv.events = [] := by
  unfold get_transactions at h
  obtain ⟨start, h0, h⟩ := bind_eq_ok h
  obtain ⟨limit, h1, h⟩ := bind_eq_ok h
  obtain ⟨b, h2, h⟩ := bind_eq_ok h
  rw [hb] at h2
  injection h2 with h2
  subst h2
  split at h
  · obtain ⟨txs, hdb, h⟩ := bind_eq_ok h
    obtain ⟨all_events, hae, h⟩ := bind_eq_ok h
    exact build_transaction_views_no_events start all_events
      (txs.transactions.zip txs.proof.transaction_infos) 0 result h
  · simp at h

/-- The views `get_transactions` produces on `c2Request` over `exDb`. -/
def c10Result : List TransactionView :=
  [{ version := 3, hash := "h", transaction := ⟨"h", [3]⟩, events := [],
     vm_status := 1, gas_used := 0 },
   { version := 4, hash := "h", transaction := ⟨"h", [4]⟩, events := [],
     vm_status := 1, gas_used := 0 }]

/-- C10 witness: the first view of the concrete range query carries no
events. -/
theorem get_transactions_no_events_spec_witness :
    ({ version := 3, hash := "h", transaction := ⟨"h", [3]⟩, events := [],
       vm_status := 1, gas_used := 0 } : TransactionView).events = [] :=
  get_transactions_no_events_spec exService c2Request c10Result rfl rfl _
    (by simp [c10Result])

/-- C1 (amended): with the blob present and every extraction step
succeeding, `get_account` collapses to "no account" exactly when the
account resource, the role, or the freezing bit is absent; when those
three are present a view is produced whatever the fetched balance set
is — balance-set absence does not collapse the result. -/
theorem get_account_presence_spec (service : JsonRpcService) (request : JsonRpcRequest)
    (address : String) (account_address : AccountAddress) (blob : Blob)
    (st : AccountState) (cinfos : List CurrencyInfoView) (currencies : List Identifier)
    (account_resource_opt : Option AccountResource)
    (balances : List (Identifier × Nat)) (role_opt : Option AccountRole)
    (freezing_bit_opt : Option FreezingBit)
    (h0 : from_value_string (request.get_param 0) = .ok address)
    (h1 : AccountAddress.from_str address = .ok account_address)
    (h2 : service.db.get_account_state_with_proof_by_version account_address
      request.version = .ok (some blob))
    (h3 : currencies_info service request = .ok cinfos)
    (h4 : cinfos.mapM (fun info => from_currency_code_string info.code) = .ok currencies)
    (h5 : AccountState.try_from blob = .ok st)
    (h6 : st.get_account_resource = .ok account_resource_opt)
    (h7 : st.get_balance_resources currencies = .ok balances)
    (h8 : st.get_account_role currencies = .ok role_opt)
    (h9 : st.get_freezing_bit = .ok freezing_bit_opt) :
    ((account_resource_opt = none ∨ role_opt = none ∨ freezing_bit_opt = none) →
      get_account service request = .ok none) ∧
    (∀ account role freezing_bit,
      account_resource_opt = some account → role_opt = some role →
      freezing_bit_opt = some freezing_bit →
      get_account service request =
        .ok (some (AccountView.new account balances role freezing_bit))) := by
  have hmain : get_account service request =
      match account_resource_opt with
      | some account =>
        match role_opt with
        | some role =>
          match freezing_bit_opt with
          | some freezing_bit =>
            .ok (some (AccountView.new account balances role freezing_bit))
          | none => .ok none
        | none => .ok none
      | none => .ok none := by
    simp only [get_account, h0, h1, h2, h3, h4, h5, h6, h7, h8, h9, bind_ok]
    cases account_resource_opt with
    | none => rfl
    | some account =>
      simp only [bind_ok, h7, h8]
      cases role_opt with
      | none => rfl
      | some role =>
        simp only [bind_ok, h9]
        cases freezing_bit_opt <;> rfl
  constructor
  · intro habs
    rw [hmain]
    rcases habs with h | h | h <;> subst h <;>
      first
        | rfl
        | (cases account_resource_opt <;> [rfl; (cases role_opt <;> [rfl; rfl])])
        | (cases account_resource_opt <;> [rfl; rfl])
  · intro account role freezing_bit ha hr hf
    subst ha; subst hr; subst hf
    rw [hmain]

/-- Request fixture: look up the example address at snapshot version 10. -/
def c1Request : JsonRpcRequest :=
  { params := [.str exAddressStr], ledger_info := exLedgerInfo }

/-- C1 counterexample: the account blob exists, the balance set fetched
for the (empty) currency list is empty — i.e. no balance resource is
present — and the account resource, role and freezing bit are present;
yet `get_account` does not return "no account", refuting the claim that
absence of any one of the four sub-resources collapses the result. -/
theorem get_account_balance_absent_counterexample :
    exDb.get_account_state_with_proof_by_version exAddress c1Request.version =
      .ok (some (.account exAccountState)) ∧
    exAccountState.get_balance_resources [] = .ok [] ∧
    get_account exService c1Request ≠ .ok none := by
  refine ⟨rfl, rfl, ?_⟩
  intro h
  have hv : get_account exService c1Request =
      .ok (some (AccountView.new ⟨7, [1, 2], false, false⟩ [] "parent_vasp" false)) := rfl
  rw [hv] at h
  simp at h

/-- `exAccountState` with the role resource absent. -/
def noRoleState : AccountState :=
  { exAccountState with get_account_role := fun _ => .ok none }

/-- `exDb` serving the role-less account state. -/
def noRoleDb : DbReader :=
  { exDb with
    get_account_state_with_proof_by_version :=
      fun _ _ => Except.ok (some (Blob.account noRoleState)) }

/-- Service handle over `noRoleDb`. -/
def noRoleService : JsonRpcService := { exService with db := noRoleDb }

/-- C1 witness: all three checked resources present (with an empty
balance set) yields a view; an absent role collapses to "no account". -/
theorem get_account_presence_spec_witness :
    get_account exService c1Request =
      .ok (some (AccountView.new ⟨7, [1, 2], false, false⟩ [] "parent_vasp" false)) ∧
    get_account noRoleService c1Request = .ok none :=
  ⟨(get_account_presence_spec exService c1Request exAddressStr exAddress
      (.account exAccountState) exAccountState [] []
      (some ⟨7, [1, 2], false, false⟩) [] (some "parent_vasp") (some false)
      rfl rfl rfl rfl rfl rfl rfl rfl rfl rfl).2
      ⟨7, [1, 2], false, false⟩ "parent_vasp" false rfl rfl rfl,
   (get_account_presence_spec noRoleService c1Request exAddressStr exAddress
      (.account noRoleState) noRoleState [] []
      (some ⟨7, [1, 2], false, false⟩) [] none (some false)
      rfl rfl rfl rfl rfl rfl rfl rfl rfl rfl).1 (Or.inr (Or.inl rfl))⟩

/-- C5: for a well-formed address whose account blob is absent at the
effective version (and with the currency-directory steps succeeding),
`get_account` returns "no account" rather than an error. -/
theorem get_account_absent_blob_spec (service : JsonRpcService) (request : JsonRpcRequest)
    (address : String) (account_address : AccountAddress)
    (cinfos : List CurrencyInfoView) (currencies : List Identifier)
    (h0 : from_value_string (request.get_param 0) = .ok address)
    (h1 : AccountAddress.from_str address = .ok account_address)
    (h2 : service.db.get_account_state_with_proof_by_version account_address
      request.version = .ok none)
    (h3 : currencies_info service request = .ok cinfos)
    (h4 : cinfos.mapM (fun info => from_currency_code_string info.code) = .ok currencies) :
    get_account service request = .ok none := by
  simp only [get_account, h0, h1, h2, h3, h4, bind_ok]

/-- `exDb` with no account blob at any version. -/
def noBlobDb : DbReader :=
  { exDb with get_account_state_with_proof_by_version := fun _ _ => .ok none }

/-- Service handle over `noBlobDb`. -/
def noBlobService : JsonRpcService := { exService with db := noBlobDb }

/-- C5 witness: the example address with no blob yields "no account". -/
theorem get_account_absent_blob_spec_witness :
    get_account noBlobService c1Request = .ok none :=
  get_account_absent_blob_spec noBlobService c1Request exAddressStr exAddress [] []
    rfl rfl rfl rfl rfl

/-- C6: with `include_events = false` and a matching record found
(carrying no events, as storage returns none when they are not
requested), the returned view's events list is empty. -/
theorem get_account_transaction_no_events_spec (service : JsonRpcService)
    (request : JsonRpcRequest) (p_account : String) (sequence : Nat)
    (account : AccountAddress) (tx : TransactionWithProof)
    (h0 : from_value_string (request.get_param 0) = .ok p_account)
    (h1 : from_value_u64 (request.get_param 1) = .ok sequence)
    (h2 : from_value_bool (request.get_param 2) = .ok false)
    (h3 : AccountAddress.try_from p_account = .ok account)
    (h4 : service.db.get_txn_by_account account sequence request.version false =
      .ok (some tx))
    (h5 : tx.events = none) :
    ∃ view, get_account_transaction service request = .ok (some view) ∧
      view.events = [] := by
  refine ⟨{ version := tx.version, hash := tx.transaction.hash,
            transaction := tx.transaction, events := [],
            vm_status := tx.proof.transaction_info.status,
            gas_used := tx.proof.transaction_info.gas_used }, ?_, rfl⟩
  simp only [get_account_transaction, h0, h1, h2, h3, h4, bind_ok]
  simp [h5]

/-- Request fixture: account transaction at sequence 4 without events. -/
def c6Request : JsonRpcRequest :=
  { params := [.str exAddressStr, .num 4, .bool false], ledger_info := exLedgerInfo }

/-- The record `exDb` returns for sequence 4. -/
def c6Tx : TransactionWithProof :=
  { version := 9, transaction := ⟨"t", [4]⟩, events := none, proof := ⟨⟨1, 2⟩⟩ }

/-- C6 witness: the concrete lookup returns a view with empty events. -/
theorem get_account_transaction_no_events_spec_witness :
    ∃ view, get_account_transaction exService c6Request = .ok (some view) ∧
      view.events = [] :=
  get_account_transaction_no_events_spec exService c6Request exAddressStr 4
    exAddress c6Tx rfl rfl rfl rfl rfl rfl

/-- C7: with `include_events = true`, a found record lacking events
makes `get_account_transaction` fail with the storage-invariant error
instead of defaulting to empty; and when no matching transaction
exists the handler returns "not found" rather than an error. -/
theorem get_account_transaction_events_invariant_spec (service : JsonRpcService)
    (request : JsonRpcRequest) (p_account : String) (sequence : Nat)
    (include_events : Bool) (account : AccountAddress)
    (h0 : from_value_string (request.get_param 0) = .ok p_account)
    (h1 : from_value_u64 (request.get_param 1) = .ok sequence)
    (h2 : from_value_bool (request.get_param 2) = .ok include_events)
    (h3 : AccountAddress.try_from p_account = .ok account) :
    (∀ tx, include_events = true →
      service.db.get_txn_by_account account sequence request.version include_events =
        .ok (some tx) →
      tx.events = none →
      get_account_transaction service request =
        .error (.storageInvariant "Storage layer did not return events when requested")) ∧
    (service.db.get_txn_by_account account sequence request.version include_events =
        .ok none →
      get_account_transaction service request = .ok none) := by
  constructor
  · intro tx hinc h4 h5
    subst hinc
    simp only [get_account_transaction, h0, h1, h2, h3, h4, bind_ok]
    simp [h5]
  · intro h4
    simp only [get_account_transaction, h0, h1, h2, h3, h4, bind_ok]

/-- Request fixture: account transaction at sequence 4 with events
requested. -/
def c7Request : JsonRpcRequest :=
  { params := [.str exAddressStr, .num 4, .bool true], ledger_info := exLedgerInfo }

/-- `exDb` with no transaction for any account and sequence. -/
def noTxDb : DbReader :=
  { exDb with get_txn_by_account := fun _ _ _ _ => .ok none }

/-- Service handle over `noTxDb`. -/
def noTxService : JsonRpcService := { exService with db := noTxDb }

/-- C7 witness: the events-less record with events requested errors;
the missing record yields "not found". -/
theorem get_account_transaction_events_invariant_spec_witness :
    get_account_transaction exService c7Request =
      .error (.storageInvariant "Storage layer did not return events when requested") ∧
    get_account_transaction noTxService c7Request = .ok none :=
  ⟨(get_account_transaction_events_invariant_spec exService c7Request exAddressStr 4
      true exAddress rfl rfl rfl rfl).1 c6Tx rfl rfl rfl,
   (get_account_transaction_events_invariant_spec noTxService c7Request exAddressStr 4
      true exAddress rfl rfl rfl rfl).2 rfl⟩

end LibraJsonRpc
